import Mathlib

/-!
Verification of the KV-cache management subsystem of BigDL's LLM code:
the growable per-layer key/value buffers used by the Falcon attention
forward passes (`src/python/llm/src/bigdl/llm/transformers/models/falcon.py`)
and the eviction logic driven by the portable chat loop
(`src/python/llm/portable-zip/chat.py`).

Tensors are modelled along the sequence axis only: a cached tensor is a
`List α` of rows (one row per cached position); the batch/head/head_dim
axes play no role in the cache-management logic except through the stride
probe, whose `head_dim` factor is kept explicit.
-/

set_option autoImplicit false

namespace BigDLKV

universe u

variable {α : Type u}

/-- Fixed allocation block, from `falcon.py` line 44:
`KV_CACHE_ALLOC_BLOCK_LENGTH = 256`. -/
def KV_CACHE_ALLOC_BLOCK_LENGTH : Nat := 256

/-- Error taxonomy of the cache subsystem (spec section 7). -/
inductive CacheError where
  | invalidArgument
  | capacityExceeded
  deriving DecidableEq, Repr

/-- A per-layer cache buffer for one tensor role (key or value):
`capacity` allocated slots along the sequence axis, `data` the rows of
the valid region `[0, length)` with `length = data.length`. -/
structure KVBuffer (α : Type u) where
  capacity : Nat
  data : List α
  deriving DecidableEq, Repr

/-- Valid length of a buffer (number of written rows). -/
def KVBuffer.length (b : KVBuffer α) : Nat := b.data.length

/-- Modelled from the spec: `init_kv_cache` of
`bigdl/llm/transformers/models/utils.py` is absent from `src/`; per spec
section 4.1 (`create`), it allocates `capacity = initial_capacity` and the
caller-side copy (`new_key_states[:] = key_layer` in `falcon.py`) fills in
the initial rows; it fails with `InvalidArgument` when
`initial_capacity < initial_length`. -/
def createKvCache (rows : List α) (cap : Nat) : Except CacheError (KVBuffer α) :=
  if rows.length ≤ cap then .ok ⟨cap, rows⟩ else .error .invalidArgument

/-- Modelled from the spec: `extend_kv_cache` of
`bigdl/llm/transformers/models/utils.py` is absent from `src/`; per spec
section 4.1 (`grow`), it requires `new_capacity > capacity`, allocates a
fresh region of `new_capacity` slots and, together with the caller-side
copy (`new_cache_k[:] = cache_k` in `falcon.py`), carries the valid rows
`[0, length)` over unchanged. -/
def extendKvCache (b : KVBuffer α) (newCap : Nat) : Except CacheError (KVBuffer α) :=
  if b.capacity < newCap then .ok ⟨newCap, b.data⟩ else .error .invalidArgument

/-- Modelled from the spec: `append_kv_cache` of
`bigdl/llm/transformers/models/utils.py` is absent from `src/`; per spec
section 4.1 (`append`), it writes the new rows after the valid region and
fails with `CapacityExceeded` when `length + |new_rows| > capacity`. It
takes both buffers, as the source function does. -/
def appendKvCache (cacheK cacheV : KVBuffer α) (keyStates valueStates : List α) :
    Except CacheError (KVBuffer α × KVBuffer α) :=
  if cacheK.data.length + keyStates.length ≤ cacheK.capacity ∧
      cacheV.data.length + valueStates.length ≤ cacheV.capacity then
    .ok (⟨cacheK.capacity, cacheK.data ++ keyStates⟩,
         ⟨cacheV.capacity, cacheV.data ++ valueStates⟩)
  else
    .error .capacityExceeded

/-- The stride-based growth probe of `falcon.py` (lines 100, 279, 453):
`cache_k.stride()[1] <= cache_k.size(2) * cache_k.size(3)`. For a cache
view of a storage region of `capacity` slots, `stride()[1]` is
`capacity * head_dim` and `size(2) * size(3)` is `length * head_dim`. -/
def strideProbe (cap len headDim : Nat) : Prop := cap * headDim ≤ len * headDim

instance (c l h : Nat) : Decidable (strideProbe c l h) := Nat.decLe _ _

/-- The KV-cache management portion common to `rw_attention_forward_7b`
(lines 96-132), `rw_attention_forward_40b` (lines 275-311) and
`falcon_attention_forward` (lines 449-485) of `falcon.py`: with a past
cache, probe the stride, possibly extend both buffers to
`kv_length + KV_CACHE_ALLOC_BLOCK_LENGTH` (where `kv_length` is the past
length plus the number of new rows) and append; without a past cache and
with `use_cache`, allocate `kv_length + KV_CACHE_ALLOC_BLOCK_LENGTH` slots
(where `kv_length` is the number of new rows) and copy the new rows in.
Returns the `present` pair (`none` when `use_cache` is false). -/
def falconCacheUpdate (headDim : Nat) (layerPast : Option (KVBuffer α × KVBuffer α))
    (useCache : Bool) (keyLayer valueLayer : List α) :
    Except CacheError (Option (KVBuffer α × KVBuffer α)) :=
  match layerPast with
  | some (cacheK0, cacheV0) => do
    let kvLength := keyLayer.length + cacheK0.data.length
    let grown ←
      if strideProbe cacheK0.capacity cacheK0.data.length headDim then do
        let newCacheK ← extendKvCache cacheK0 (kvLength + KV_CACHE_ALLOC_BLOCK_LENGTH)
        let newCacheV ← extendKvCache cacheV0 (kvLength + KV_CACHE_ALLOC_BLOCK_LENGTH)
        pure (newCacheK, newCacheV)
      else
        pure (cacheK0, cacheV0)
    let appended ← appendKvCache grown.1 grown.2 keyLayer valueLayer
    pure (if useCache then some appended else none)
  | none =>
    if useCache then do
      let kvLength := keyLayer.length
      let newKeyStates ← createKvCache keyLayer (kvLength + KV_CACHE_ALLOC_BLOCK_LENGTH)
      let newValueStates ← createKvCache valueLayer (kvLength + KV_CACHE_ALLOC_BLOCK_LENGTH)
      pure (some (newKeyStates, newValueStates))
    else
      pure none

/-- Modelled from the spec: `truncate_front_and_back` of the `kv_cache`
module (imported by `chat.py` as `from kv_cache import StartRecentKVCache`)
is absent from `src/`; per spec section 4.1, it relocates the first
`keep_front` rows followed by the last `keep_back` rows into a fresh
contiguous region, preserving their relative order. -/
def truncateFrontAndBack (keepFront keepBack : Nat) (t : List α) : List α :=
  t.take keepFront ++ t.drop (t.length - keepBack)

/-- A cache set: one `(key, value)` pair of row lists per transformer
layer, as handed around by `chat.py` as `past_key_values`. -/
def KVCache (α : Type u) : Type u := List (List α × List α)

/-- Shared current length of a cache set, read off the first layer's key
tensor (spec section 4.3: all layers share the same length). -/
def cacheLength (cache : KVCache α) : Nat :=
  match cache.head? with
  | some layer => layer.1.length
  | none => 0

/-- Modelled from the spec: `StartRecentKVCache.evict_for_space` of the
`kv_cache` module is absent from `src/`; per spec section 4.3: no eviction
when `length + space_needed ≤ max_cache_len + start_size`; a no-op when
`length ≤ start_size`; `InvalidArgument` when `space_needed >
max_cache_len`; otherwise every layer is compacted with
`truncate_front_and_back(keep_front = start_size, keep_back =
max_cache_len - space_needed)`. -/
def evictForSpace (startSize maxCacheLen spaceNeeded : Nat) (cache : KVCache α) :
    Except CacheError (KVCache α) :=
  let len := cacheLength cache
  if len + spaceNeeded ≤ maxCacheLen + startSize then
    .ok cache
  else if len ≤ startSize then
    .ok cache
  else if maxCacheLen < spaceNeeded then
    .error .invalidArgument
  else
    .ok (cache.map (fun layer =>
      (truncateFrontAndBack startSize (maxCacheLen - spaceNeeded) layer.1,
       truncateFrontAndBack startSize (maxCacheLen - spaceNeeded) layer.2)))

/-- The per-tensor truncation of `chatglm3_stream_chat` (`chat.py` line
174): `new_v = val[-max_past_length:]`. A Python slice `[-m:]` with
`m = 0` is `[0:]`, the whole list; with `m > 0` it is the last
`min(len, m)` rows. -/
def chatglm3TruncateTensor (maxPastLength : Nat) (val : List α) : List α :=
  if maxPastLength = 0 then val else val.drop (val.length - maxPastLength)

/-- The per-chunk cache bound of `chatglm3_stream_chat` (`chat.py` lines
168-177): if `past_key_values[0][0].shape[0] > max_past_length`, every
tensor of every layer is replaced by its last `max_past_length` rows;
`none` models the `IndexError` Python would raise on an empty structure. -/
def chatglm3Step (maxPastLength : Nat) (pkv : List (List (List α))) :
    Option (List (List (List α))) :=
  match pkv.head? with
  | none => none
  | some layer0 =>
    match layer0.head? with
    | none => none
    | some t0 =>
      if t0.length > maxPastLength then
        some (pkv.map (fun layer => layer.map (chatglm3TruncateTensor maxPastLength)))
      else
        some pkv

/-- Observable cache events of one user turn of a chat loop. -/
inductive ChatEvent where
  | evict (spaceNeeded : Nat)
  | generate
  deriving DecidableEq, Repr

/-- Cache events of one user turn of `stream_chat` (`chat.py` lines
127-136): tokenize the prompt to `seqLen` tokens, then, when a `kv_cache`
is supplied, `evict_for_space` with `space_needed = seq_len + max_gen_len`,
then `greedy_generate`. -/
def streamChatTurnEvents (useKvCache : Bool) (seqLen maxGenLen : Nat) : List ChatEvent :=
  (if useKvCache then [ChatEvent.evict (seqLen + maxGenLen)] else []) ++
    [ChatEvent.generate]

/-- Cache events of one user turn of `qwen_stream_chat` (`chat.py` lines
188-205), identical in structure to `stream_chat`. -/
def qwenStreamChatTurnEvents (useKvCache : Bool) (seqLen maxGenLen : Nat) : List ChatEvent :=
  (if useKvCache then [ChatEvent.evict (seqLen + maxGenLen)] else []) ++
    [ChatEvent.generate]

/-- Cache events of one user turn of `llama_stream_chat` (`chat.py` lines
216-230), identical in structure to `stream_chat`. -/
def llamaStreamChatTurnEvents (useKvCache : Bool) (seqLen maxGenLen : Nat) : List ChatEvent :=
  (if useKvCache then [ChatEvent.evict (seqLen + maxGenLen)] else []) ++
    [ChatEvent.generate]

/-- Cache events of one user turn of `yi_stream_chat` (`chat.py` lines
241-258), identical in structure to `stream_chat`. -/
def yiStreamChatTurnEvents (useKvCache : Bool) (seqLen maxGenLen : Nat) : List ChatEvent :=
  (if useKvCache then [ChatEvent.evict (seqLen + maxGenLen)] else []) ++
    [ChatEvent.generate]

/-- Whether a chat event is an eviction request. -/
def ChatEvent.isEvict : ChatEvent → Bool
  | .evict _ => true
  | .generate => false

/-- All tensors of all layers of a cache report the same length `L`
(spec Invariant 2, synchronized lengths). -/
def uniformLen (pkv : List (List (List α))) (L : Nat) : Prop :=
  ∀ layer ∈ pkv, ∀ t ∈ layer, t.length = L

instance (pkv : List (List (List α))) (L : Nat) : Decidable (uniformLen pkv L) :=
  List.decidableBAll _ pkv

/-- Token/cache accounting state of `greedy_generate` (`chat.py` lines
72-117): `cacheLen` rows cached so far, `generated` tokens emitted. -/
structure GenState where
  cacheLen : Nat
  generated : Nat
  deriving DecidableEq, Repr

/-- The decoding loop of `greedy_generate` (`chat.py` lines 84-115):
each iteration runs one single-token forward pass (caching one more row,
emitting one more token) and then may break (stop words, chunk marker or
`eos`), decided here by the oracle `stop` at the iteration index. -/
def greedyLoop (stop : Nat → Bool) : Nat → Nat → GenState → GenState
  | 0, _, s => s
  | n + 1, i, s =>
    let s2 : GenState := ⟨s.cacheLen + 1, s.generated + 1⟩
    if stop i then s2 else greedyLoop stop n (i + 1) s2

/-- Token/cache accounting of `greedy_generate` (`chat.py` lines 72-117):
the initial forward pass caches the `seqLen` prompt rows and emits one
token, then the loop runs at most `max_gen_len - 1` iterations. -/
def greedyGenerate (stop : Nat → Bool) (pastLen seqLen maxGenLen : Nat) : GenState :=
  greedyLoop stop (maxGenLen - 1) 0 ⟨pastLen + seqLen, 1⟩

/-- One single-token decoding step of the falcon cache accounting, on
state `(capacity, length, reallocCount)`: exactly the growth decision of
`falconCacheUpdate` with one new row (`kv_length = length + 1`). -/
def falconDecodeStep (headDim : Nat) : Nat × Nat × Nat → Nat × Nat × Nat
  | (cap, len, r) =>
    if strideProbe cap len headDim then
      (len + 1 + KV_CACHE_ALLOC_BLOCK_LENGTH, len + 1, r + 1)
    else
      (cap, len + 1, r)

/-- A decoding session: `n` single-token steps of `falconDecodeStep`. -/
def falconSession (headDim : Nat) : Nat → Nat × Nat × Nat → Nat × Nat × Nat
  | 0, s => s
  | n + 1, s => falconSession headDim n (falconDecodeStep headDim s)

/-!
A finer, storage-level model of the growth path of `falcon.py`
(lines 100-116: `extend_kv_cache`, the two bulk copies, and the rebinding
of `cache_k`/`cache_v`), used to settle the failure-atomicity property:
memory is a map from region addresses to regions (slot lists, `none` for
an uninitialized slot), allocation and each row copy are separate steps,
and an out-of-memory failure may strike at allocation or after any number
of copied rows.
-/

/-- Device memory: one region of `Option α` slots per address. -/
def Heap (α : Type u) : Type u := Nat → List (Option α)

/-- Overwrite the whole region at address `a`. -/
def writeRegion (h : Heap α) (a : Nat) (region : List (Option α)) : Heap α :=
  fun a2 => if a2 = a then region else h a2

/-- Write one slot `i` of the region at address `a`. -/
def writeSlot (h : Heap α) (a i : Nat) (x : Option α) : Heap α :=
  fun a2 => if a2 = a then (h a2).set i x else h a2

/-- Copy rows `0..k-1` from the region at `src` into the region at `dst`,
one row at a time (row `k-1` first, reading the current heap each time). -/
def copyRows (src dst : Nat) : Nat → Heap α → Heap α
  | 0, h => h
  | k + 1, h => copyRows src dst k (writeSlot h dst k ((h src).getD k none))

/-- A buffer handle: the address of its storage region and its valid
length (rows `[0, len)` of the region hold the cached data). -/
structure BufRef where
  addr : Nat
  len : Nat
  deriving DecidableEq, Repr

/-- The growth sequence of `falcon.py` lines 100-116 at storage level:
allocate a fresh region `dst` of `newCap` slots (failing if `allocOk` is
false), copy the `b.len` valid rows into it one at a time (failing
out-of-memory after `copyBudget` rows if `copyBudget < b.len`), and only
then rebind the buffer to the new region. On failure the heap reached so
far is returned with the buffer handle untouched. -/
def growAttempt (allocOk : Bool) (copyBudget : Nat) (h : Heap α) (b : BufRef)
    (dst newCap : Nat) : Except (Heap α) (Heap α × BufRef) :=
  if allocOk then
    let h1 := writeRegion h dst (List.replicate newCap none)
    if b.len ≤ copyBudget then
      .ok (copyRows b.addr dst b.len h1, ⟨dst, b.len⟩)
    else
      .error (copyRows b.addr dst copyBudget h1)
  else
    .error h

/-!
Theorems. Claims C1-C10 of the specification are settled below; shared
helper lemmas come first.
-/

theorem list_getD_set_ne {β : Type u} (l : List β) (i j : Nat) (x d : β) (h : i ≠ j) :
    (l.set i x).getD j d = l.getD j d := by
  simp [List.getD, List.getElem?_set_ne h]

theorem list_getD_set_self {β : Type u} (l : List β) (i : Nat) (x d : β) (h : i < l.length) :
    (l.set i x).getD i d = x := by
  simp [List.getD, List.getElem?_set_self, h]

/-- C3: `evict_for_space` performs no eviction when
`length + space_needed ≤ max_cache_len + start_size` and otherwise
compacts every layer with `keep_front = start_size` and
`keep_back = max_cache_len - space_needed`; with `start_size = 4`,
`max_cache_len = 20`, a length-18 cache with `space_needed = 5` is
unchanged while a length-22 cache is compacted with `keep_back = 15` to
final length 19. -/
theorem evictForSpace_spec :
    (∀ (start maxLen space : Nat) (cache : KVCache Nat),
        cacheLength cache + space ≤ maxLen + start →
        evictForSpace start maxLen space cache = .ok cache)
    ∧ (∀ (start maxLen space : Nat) (cache : KVCache Nat),
        maxLen + start < cacheLength cache + space →
        start < cacheLength cache →
        space ≤ maxLen →
        evictForSpace start maxLen space cache =
          .ok (cache.map (fun layer =>
            (truncateFrontAndBack start (maxLen - space) layer.1,
             truncateFrontAndBack start (maxLen - space) layer.2))))
    ∧ evictForSpace 4 20 5 [(List.range 18, List.range 18)] =
        .ok [(List.range 18, List.range 18)]
    ∧ evictForSpace 4 20 5 [(List.range 22, List.range 22)] =
        .ok [(truncateFrontAndBack 4 15 (List.range 22),
              truncateFrontAndBack 4 15 (List.range 22))]
    ∧ (truncateFrontAndBack 4 15 (List.range 22)).length = 19 := by
  refine ⟨?_, ?_, ?_, ?_, ?_⟩
  · intro start maxLen space cache h
    simp only [evictForSpace]
    rw [if_pos h]
  · intro start maxLen space cache h1 h2 h3
    simp only [evictForSpace]
    rw [if_neg (by omega), if_neg (by omega), if_neg (by omega)]
  · rfl
  · rfl
  · decide

/-- C3 witness: the two concrete scenarios, obtained from the general
branches of `evictForSpace_spec`. -/
theorem evictForSpace_spec_witness :
    evictForSpace 4 20 5 [(List.range 18, List.range 18)] =
      .ok [(List.range 18, List.range 18)]
    ∧ evictForSpace 4 20 5 [(List.range 22, List.range 22)] =
        .ok ([(List.range 22, List.range 22)].map (fun layer =>
          (truncateFrontAndBack 4 (20 - 5) layer.1,
           truncateFrontAndBack 4 (20 - 5) layer.2))) :=
  ⟨evictForSpace_spec.1 4 20 5 [(List.range 18, List.range 18)] (by decide),
   evictForSpace_spec.2.1 4 20 5 [(List.range 22, List.range 22)]
     (by decide) (by decide) (by decide)⟩

/-- C1 counterexample: the ChatGLM3 chat path violates the claim. On a
cache holding one layer with one tensor of 2049 distinct rows, the
truncation of `chatglm3_stream_chat` keeps exactly the most recent 2048
rows: the earliest row (position 0, which any sink window with
`start_size ≥ 1` must retain) is present before and discarded after. -/
theorem chatglm3_drops_sink_cex :
    chatglm3Step 2048 [[List.range 2049]] = some [[(List.range 2049).drop 1]]
    ∧ (0 : Nat) ∈ List.range 2049
    ∧ (0 : Nat) ∉ (List.range 2049).drop 1 := by
  refine ⟨?_, ?_, ?_⟩
  · simp only [chatglm3Step, List.head?, chatglm3TruncateTensor, List.map,
      List.length_range]
    norm_num
  · simp [List.mem_range]
  · rw [List.range_succ_eq_map]
    simp

/-- C1 (amended): evictions performed through
`StartRecentKVCache.evict_for_space` retain the earliest `start_size`
positions plus the most recent `keep_back` positions of every layer; the
ChatGLM3 chat path, however, truncates each cached tensor to its last
`max_past_length` rows, which is `truncate_front_and_back` with
`keep_front = 0` and `keep_back = max_past_length` — it keeps only the
most recent positions and discards the earliest. -/
theorem chatglm3_recent_only_amended :
    (∀ (start maxLen space : Nat) (cache : KVCache Nat),
        maxLen + start < cacheLength cache + space →
        start < cacheLength cache →
        space ≤ maxLen →
        evictForSpace start maxLen space cache =
          .ok (cache.map (fun layer =>
            (truncateFrontAndBack start (maxLen - space) layer.1,
             truncateFrontAndBack start (maxLen - space) layer.2))))
    ∧ (∀ (t : List Nat), chatglm3TruncateTensor 2048 t = truncateFrontAndBack 0 2048 t) := by
  constructor
  · intro start maxLen space cache h1 h2 h3
    simp only [evictForSpace]
    rw [if_neg (by omega), if_neg (by omega), if_neg (by omega)]
  · intro t
    simp [chatglm3TruncateTensor, truncateFrontAndBack]

/-- C1 witness: the amended claim instantiated on a concrete length-22
cache and a concrete 6-row tensor. -/
theorem chatglm3_recent_only_amended_witness :
    evictForSpace 4 20 5 [(List.range 22, List.range 22)] =
      .ok ([(List.range 22, List.range 22)].map (fun layer =>
        (truncateFrontAndBack 4 (20 - 5) layer.1,
         truncateFrontAndBack 4 (20 - 5) layer.2)))
    ∧ chatglm3TruncateTensor 2048 (List.range 6) = truncateFrontAndBack 0 2048 (List.range 6) :=
  ⟨chatglm3_recent_only_amended.1 4 20 5 [(List.range 22, List.range 22)]
     (by decide) (by decide) (by decide),
   chatglm3_recent_only_amended.2 (List.range 6)⟩

/-- C2: the stride-based growth probe of the Falcon attention forward
passes is not equivalent to the capacity-versus-required-length
comparison when more than one new token is appended. Concretely, with a
past cache of 2 rows in a capacity-3 buffer (`head_dim = 1`) and 2 new
rows, the required length is 4 > 3, yet the probe
`stride()[1] <= size(2) * size(3)` (3 ≤ 2) does not fire, so no growth
happens and the subsequent append exceeds capacity — contradicting the
append precondition the spec requires callers to guarantee. -/
theorem falcon_stride_probe_bug :
    ¬ strideProbe 3 2 1
    ∧ 3 < 2 + 2
    ∧ falconCacheUpdate 1 (some (⟨3, [10, 11]⟩, ⟨3, [10, 11]⟩)) true [20, 21] [20, 21]
        = (.error .capacityExceeded : Except CacheError (Option (KVBuffer Nat × KVBuffer Nat))) := by
  refine ⟨by decide, by decide, ?_⟩
  rfl

/-- C5: growth preserves data. For any key buffer and value buffer grown
to a strictly larger requested capacity, the valid rows `[0, length)` are
carried over bit-identically and the resulting capacity equals the
requested one. -/
theorem falcon_growth_preserves :
    ∀ (bk bv : KVBuffer Nat) (newCap : Nat),
      bk.capacity < newCap → bv.capacity < newCap →
      extendKvCache bk newCap = .ok ⟨newCap, bk.data⟩
      ∧ extendKvCache bv newCap = .ok ⟨newCap, bv.data⟩ := by
  intro bk bv newCap hk hv
  constructor
  · simp only [extendKvCache]
    rw [if_pos hk]
  · simp only [extendKvCache]
    rw [if_pos hv]

/-- C5 witness: growing concrete 2-row buffers from capacity 3 to
capacity 5 keeps the rows and sets the capacity to 5. -/
theorem falcon_growth_preserves_witness :
    extendKvCache (⟨3, [10, 11]⟩ : KVBuffer Nat) 5 = .ok ⟨5, [10, 11]⟩
    ∧ extendKvCache (⟨2, [7, 8]⟩ : KVBuffer Nat) 5 = .ok ⟨5, [7, 8]⟩ :=
  falcon_growth_preserves ⟨3, [10, 11]⟩ ⟨2, [7, 8]⟩ 5 (by decide) (by decide)

theorem except_bind_ok {ε β γ : Type u} (x : β) (f : β → Except ε γ) :
    (Except.ok x >>= f : Except ε γ) = f x := rfl

theorem except_bind_error {ε β γ : Type u} (e : ε) (f : β → Except ε γ) :
    (Except.error e >>= f : Except ε γ) = Except.error e := rfl

theorem strideProbe_iff (cap len hd : Nat) (h : 1 ≤ hd) :
    strideProbe cap len hd ↔ cap ≤ len := by
  constructor
  · intro hp
    exact Nat.le_of_mul_le_mul_right hp h
  · intro hle
    exact Nat.mul_le_mul_right hd hle

theorem falconSession_measure (hd : Nat) (hhd : 1 ≤ hd) :
    ∀ (n cap len r : Nat), cap - len ≤ KV_CACHE_ALLOC_BLOCK_LENGTH →
      KV_CACHE_ALLOC_BLOCK_LENGTH * (falconSession hd n (cap, len, r)).2.2
          + (KV_CACHE_ALLOC_BLOCK_LENGTH
              - ((falconSession hd n (cap, len, r)).1 - (falconSession hd n (cap, len, r)).2.1))
        ≤ KV_CACHE_ALLOC_BLOCK_LENGTH * r
            + (KV_CACHE_ALLOC_BLOCK_LENGTH - (cap - len)) + n
      ∧ (falconSession hd n (cap, len, r)).1 - (falconSession hd n (cap, len, r)).2.1
          ≤ KV_CACHE_ALLOC_BLOCK_LENGTH := by
  intro n
  induction n with
  | zero =>
    intro cap len r hs
    dsimp only [falconSession]
    simp only [KV_CACHE_ALLOC_BLOCK_LENGTH] at hs ⊢
    omega
  | succ n ih =>
    intro cap len r hs
    simp only [KV_CACHE_ALLOC_BLOCK_LENGTH] at hs
    have hsess : falconSession hd (n + 1) (cap, len, r)
        = falconSession hd n (falconDecodeStep hd (cap, len, r)) := rfl
    rw [hsess]
    by_cases hp : strideProbe cap len hd
    · have hcl : cap ≤ len := (strideProbe_iff cap len hd hhd).1 hp
      have hstep : falconDecodeStep hd (cap, len, r)
          = (len + 1 + KV_CACHE_ALLOC_BLOCK_LENGTH, len + 1, r + 1) := by
        simp only [falconDecodeStep]
        rw [if_pos hp]
      rw [hstep]
      have h2 := ih (len + 1 + KV_CACHE_ALLOC_BLOCK_LENGTH) (len + 1) (r + 1) (by
        simp only [KV_CACHE_ALLOC_BLOCK_LENGTH]
        omega)
      simp only [KV_CACHE_ALLOC_BLOCK_LENGTH] at h2 ⊢
      omega
    · have hcl : len < cap := by
        by_contra hc
        exact hp ((strideProbe_iff cap len hd hhd).2 (by omega))
      have hstep : falconDecodeStep hd (cap, len, r) = (cap, len + 1, r) := by
        simp only [falconDecodeStep]
        rw [if_neg hp]
      rw [hstep]
      have h2 := ih cap (len + 1) r (by
        simp only [KV_CACHE_ALLOC_BLOCK_LENGTH]
        omega)
      simp only [KV_CACHE_ALLOC_BLOCK_LENGTH] at h2 ⊢
      omega

/-- C4: whenever the cache is created or grown the new capacity is the
required length plus a fixed block of 256 slots. On the first cached step
the allocated capacity is `kv_length + 256`; on every growth triggered by
an append the newly allocated capacity is the post-append required length
`kv_length + 256`; and over a session of `L` single-token decoding steps
the number of reallocations `r` satisfies `r * 256 ≤ L`, i.e.
`O(L / 256)`. -/
theorem falcon_block_allocation :
    (∀ (headDim : Nat) (keyLayer valueLayer : List Nat),
        valueLayer.length = keyLayer.length →
        falconCacheUpdate headDim none true keyLayer valueLayer =
          .ok (some (⟨keyLayer.length + KV_CACHE_ALLOC_BLOCK_LENGTH, keyLayer⟩,
                     ⟨keyLayer.length + KV_CACHE_ALLOC_BLOCK_LENGTH, valueLayer⟩)))
    ∧ (∀ (headDim : Nat) (cacheK cacheV : KVBuffer Nat) (keyLayer valueLayer : List Nat),
        1 ≤ headDim →
        cacheV.capacity = cacheK.capacity →
        cacheV.data.length = cacheK.data.length →
        valueLayer.length = keyLayer.length →
        strideProbe cacheK.capacity cacheK.data.length headDim →
        falconCacheUpdate headDim (some (cacheK, cacheV)) true keyLayer valueLayer =
          .ok (some
            (⟨keyLayer.length + cacheK.data.length + KV_CACHE_ALLOC_BLOCK_LENGTH,
              cacheK.data ++ keyLayer⟩,
             ⟨keyLayer.length + cacheK.data.length + KV_CACHE_ALLOC_BLOCK_LENGTH,
              cacheV.data ++ valueLayer⟩)))
    ∧ (∀ (headDim L n0 : Nat), 1 ≤ headDim →
        (falconSession headDim L (n0 + KV_CACHE_ALLOC_BLOCK_LENGTH, n0, 0)).2.2
            * KV_CACHE_ALLOC_BLOCK_LENGTH ≤ L) := by
  refine ⟨?_, ?_, ?_⟩
  · intro headDim keyLayer valueLayer hlen
    simp only [falconCacheUpdate, createKvCache]
    rw [if_pos (show keyLayer.length ≤ keyLayer.length + KV_CACHE_ALLOC_BLOCK_LENGTH
      by omega)]
    rw [if_pos (show valueLayer.length ≤ keyLayer.length + KV_CACHE_ALLOC_BLOCK_LENGTH
      by omega)]
    simp only [except_bind_ok]
    rfl
  · intro headDim cacheK cacheV keyLayer valueLayer hhd hcap hlen hklen hp
    have hcl : cacheK.capacity ≤ cacheK.data.length :=
      (strideProbe_iff _ _ _ hhd).1 hp
    simp only [falconCacheUpdate]
    rw [if_pos hp]
    simp only [extendKvCache]
    rw [if_pos (show cacheK.capacity
          < keyLayer.length + cacheK.data.length + KV_CACHE_ALLOC_BLOCK_LENGTH by
        simp only [KV_CACHE_ALLOC_BLOCK_LENGTH]
        omega)]
    rw [if_pos (show cacheV.capacity
          < keyLayer.length + cacheK.data.length + KV_CACHE_ALLOC_BLOCK_LENGTH by
        simp only [KV_CACHE_ALLOC_BLOCK_LENGTH]
        omega)]
    simp only [except_bind_ok, pure_bind]
    simp only [appendKvCache]
    rw [if_pos (show _ ∧ _ from ⟨by simp only [KV_CACHE_ALLOC_BLOCK_LENGTH]; omega,
      by simp only [KV_CACHE_ALLOC_BLOCK_LENGTH]; omega⟩)]
    simp only [except_bind_ok]
    rfl
  · intro headDim L n0 hhd
    have h := falconSession_measure headDim hhd L (n0 + KV_CACHE_ALLOC_BLOCK_LENGTH) n0 0
      (by omega)
    have h1 := h.1
    simp only [KV_CACHE_ALLOC_BLOCK_LENGTH] at h1 ⊢
    omega

/-- C4 witness: the first cached step with a 2-row prompt allocates
capacity `2 + 256 = 258`; a growth step on a full 2-row capacity-2 buffer
allocates capacity `3 + 256 = 259`; and a 600-step session starting from
a freshly created 4-row buffer satisfies the reallocation bound. -/
theorem falcon_block_allocation_witness :
    falconCacheUpdate 1 none true [10, 11] [12, 13] =
      .ok (some (⟨2 + KV_CACHE_ALLOC_BLOCK_LENGTH, [10, 11]⟩,
                 ⟨2 + KV_CACHE_ALLOC_BLOCK_LENGTH, [12, 13]⟩))
    ∧ falconCacheUpdate 1 (some (⟨2, [10, 11]⟩, ⟨2, [12, 13]⟩)) true [20] [21] =
        .ok (some (⟨1 + 2 + KV_CACHE_ALLOC_BLOCK_LENGTH, [10, 11] ++ [20]⟩,
                   ⟨1 + 2 + KV_CACHE_ALLOC_BLOCK_LENGTH, [12, 13] ++ [21]⟩))
    ∧ (falconSession 1 600 (4 + KV_CACHE_ALLOC_BLOCK_LENGTH, 4, 0)).2.2
        * KV_CACHE_ALLOC_BLOCK_LENGTH ≤ 600 :=
  ⟨falcon_block_allocation.1 1 [10, 11] [12, 13] rfl,
   falcon_block_allocation.2.1 1 ⟨2, [10, 11]⟩ ⟨2, [12, 13]⟩ [20] [21]
     (by decide) rfl rfl rfl (by decide),
   falcon_block_allocation.2.2 1 600 4 (by decide)⟩

/-- C6: in every chat-loop variant that uses a `kv_cache`
(`stream_chat`, `qwen_stream_chat`, `llama_stream_chat`,
`yi_stream_chat`), each user turn performs exactly one `evict_for_space`
call, before generation begins, with
`space_needed = seq_len + max_gen_len`. -/
theorem chat_turn_evicts_once :
    ∀ (seqLen maxGenLen : Nat),
      streamChatTurnEvents true seqLen maxGenLen
          = [ChatEvent.evict (seqLen + maxGenLen), ChatEvent.generate]
      ∧ qwenStreamChatTurnEvents true seqLen maxGenLen
          = [ChatEvent.evict (seqLen + maxGenLen), ChatEvent.generate]
      ∧ llamaStreamChatTurnEvents true seqLen maxGenLen
          = [ChatEvent.evict (seqLen + maxGenLen), ChatEvent.generate]
      ∧ yiStreamChatTurnEvents true seqLen maxGenLen
          = [ChatEvent.evict (seqLen + maxGenLen), ChatEvent.generate]
      ∧ (streamChatTurnEvents true seqLen maxGenLen).countP ChatEvent.isEvict = 1 := by
  intro seqLen maxGenLen
  refine ⟨rfl, rfl, rfl, rfl, ?_⟩
  simp [streamChatTurnEvents, List.countP, List.countP.go, ChatEvent.isEvict]

theorem greedyLoop_le (stop : Nat → Bool) :
    ∀ (n i : Nat) (s : GenState),
      (greedyLoop stop n i s).generated ≤ s.generated + n
      ∧ (greedyLoop stop n i s).cacheLen ≤ s.cacheLen + n := by
  intro n
  induction n with
  | zero =>
    intro i s
    exact ⟨Nat.le_refl _, Nat.le_refl _⟩
  | succ n ih =>
    intro i s
    have hl : greedyLoop stop (n + 1) i s
        = if stop i then ⟨s.cacheLen + 1, s.generated + 1⟩
          else greedyLoop stop n (i + 1) ⟨s.cacheLen + 1, s.generated + 1⟩ := rfl
    rw [hl]
    by_cases hstop : stop i
    · rw [if_pos hstop]
      constructor
      · show s.generated + 1 ≤ s.generated + (n + 1)
        omega
      · show s.cacheLen + 1 ≤ s.cacheLen + (n + 1)
        omega
    · rw [if_neg hstop]
      have h := ih (i + 1) ⟨s.cacheLen + 1, s.generated + 1⟩
      constructor
      · exact le_trans h.1 (by simp only; omega)
      · exact le_trans h.2 (by simp only; omega)

/-- C9: `greedy_generate` emits at most `max_gen_len` tokens per call
(one from the initial forward pass plus at most `max_gen_len - 1` from
the bounded loop), and the cached sequence grows by at most
`seq_len + max_gen_len` rows — never more than the `space_needed`
reserved by the preceding `evict_for_space` call. -/
theorem greedy_generate_bounds :
    ∀ (stop : Nat → Bool) (pastLen seqLen maxGenLen : Nat), 1 ≤ maxGenLen →
      (greedyGenerate stop pastLen seqLen maxGenLen).generated ≤ maxGenLen
      ∧ (greedyGenerate stop pastLen seqLen maxGenLen).cacheLen
          ≤ pastLen + (seqLen + maxGenLen) := by
  intro stop pastLen seqLen maxGenLen hgen
  have h := greedyLoop_le stop (maxGenLen - 1) 0 ⟨pastLen + seqLen, 1⟩
  simp only [greedyGenerate]
  constructor
  · exact le_trans h.1 (by simp only; omega)
  · exact le_trans h.2 (by simp only; omega)

/-- C9 witness: a run with prompt length 3, `max_gen_len = 5` and no
early stop emits at most 5 tokens and caches at most 8 rows. -/
theorem greedy_generate_bounds_witness :
    (greedyGenerate (fun _ => false) 0 3 5).generated ≤ 5
    ∧ (greedyGenerate (fun _ => false) 0 3 5).cacheLen ≤ 0 + (3 + 5) :=
  greedy_generate_bounds (fun _ => false) 0 3 5 (by decide)

/-- C8: in the ChatGLM3 chat path, on any cache whose tensors all report
the same length, the per-chunk bound leaves every cached tensor with
sequence length `min L 2048 ≤ 2048`, and all layers report that same
length afterwards (the identical trailing slice is applied to every
tensor of every layer when truncation fires). -/
theorem chatglm3_length_invariant :
    ∀ (pkv : List (List (List Nat))) (layer0 : List (List Nat)) (t0 : List Nat) (L : Nat),
      pkv.head? = some layer0 →
      layer0.head? = some t0 →
      uniformLen pkv L →
      ∃ out, chatglm3Step 2048 pkv = some out
        ∧ uniformLen out (min L 2048)
        ∧ min L 2048 ≤ 2048 := by
  intro pkv layer0 t0 L h0 h1 hu
  have ht0 : t0.length = L :=
    hu layer0 (List.mem_of_mem_head? h0) t0 (List.mem_of_mem_head? h1)
  simp only [chatglm3Step, h0, h1]
  by_cases hL : 2048 < L
  · rw [if_pos (by omega)]
    refine ⟨_, rfl, ?_, by omega⟩
    intro layer hlayer t ht
    rcases List.mem_map.1 hlayer with ⟨layer2, hl2, rfl⟩
    rcases List.mem_map.1 ht with ⟨t2, ht2, rfl⟩
    have hlen2 : t2.length = L := hu layer2 hl2 t2 ht2
    simp only [chatglm3TruncateTensor]
    rw [if_neg (by omega)]
    simp only [List.length_drop]
    omega
  · rw [if_neg (by omega)]
    refine ⟨pkv, rfl, ?_, by omega⟩
    intro layer hlayer t ht
    have := hu layer hlayer t ht
    omega

/-- C8 witness: a one-layer cache with two 3-row tensors passes the
chunk bound unchanged with uniform length `min 3 2048 = 3`. -/
theorem chatglm3_length_invariant_witness :
    ∃ out, chatglm3Step 2048 [[[10, 11, 12], [20, 21, 22]]] = some out
      ∧ uniformLen out (min 3 2048)
      ∧ min 3 2048 ≤ 2048 :=
  chatglm3_length_invariant [[[10, 11, 12], [20, 21, 22]]] [[10, 11, 12], [20, 21, 22]]
    [10, 11, 12] 3 rfl rfl (by decide)

/-- C10: in every Falcon attention-forward variant the key and value
caches move in lockstep: for a lockstep past cache and equally many new
key and value rows, whenever the update returns a `present` pair its key
and value lengths are equal, and equal to the past cached length plus the
number of new rows (with no past cache, to the number of new rows). -/
theorem falcon_present_lockstep :
    (∀ (headDim : Nat) (cacheK cacheV : KVBuffer Nat) (keyLayer valueLayer : List Nat)
        (kOut vOut : KVBuffer Nat),
      cacheV.capacity = cacheK.capacity →
      cacheV.data.length = cacheK.data.length →
      valueLayer.length = keyLayer.length →
      falconCacheUpdate headDim (some (cacheK, cacheV)) true keyLayer valueLayer
        = .ok (some (kOut, vOut)) →
      kOut.data.length = vOut.data.length
      ∧ kOut.data.length = cacheK.data.length + keyLayer.length)
    ∧ (∀ (headDim : Nat) (keyLayer valueLayer : List Nat) (kOut vOut : KVBuffer Nat),
      valueLayer.length = keyLayer.length →
      falconCacheUpdate headDim none true keyLayer valueLayer = .ok (some (kOut, vOut)) →
      kOut.data.length = vOut.data.length
      ∧ kOut.data.length = keyLayer.length) := by
  constructor
  · intro headDim cacheK cacheV keyLayer valueLayer kOut vOut hcap hlen hklen heq
    by_cases hp : strideProbe cacheK.capacity cacheK.data.length headDim
    · by_cases h1 : cacheK.capacity
          < keyLayer.length + cacheK.data.length + KV_CACHE_ALLOC_BLOCK_LENGTH
      · have hcompute : falconCacheUpdate headDim (some (cacheK, cacheV)) true
            keyLayer valueLayer =
            .ok (some
              (⟨keyLayer.length + cacheK.data.length + KV_CACHE_ALLOC_BLOCK_LENGTH,
                cacheK.data ++ keyLayer⟩,
               ⟨keyLayer.length + cacheK.data.length + KV_CACHE_ALLOC_BLOCK_LENGTH,
                cacheV.data ++ valueLayer⟩)) := by
          simp only [falconCacheUpdate]
          rw [if_pos hp]
          simp only [extendKvCache]
          rw [if_pos h1, if_pos (show cacheV.capacity
              < keyLayer.length + cacheK.data.length + KV_CACHE_ALLOC_BLOCK_LENGTH by
            omega)]
          simp only [except_bind_ok, pure_bind]
          simp only [appendKvCache]
          rw [if_pos (show _ ∧ _ from ⟨by omega, by omega⟩)]
          simp only [except_bind_ok]
          rfl
        rw [hcompute] at heq
        simp only [Except.ok.injEq, Option.some.injEq, Prod.mk.injEq] at heq
        obtain ⟨hk, hv⟩ := heq
        subst hk
        subst hv
        constructor
        · simp only [List.length_append]
          omega
        · simp only [List.length_append]
      · have hcompute : falconCacheUpdate headDim (some (cacheK, cacheV)) true
            keyLayer valueLayer = .error .invalidArgument := by
          simp only [falconCacheUpdate]
          rw [if_pos hp]
          simp only [extendKvCache]
          rw [if_neg h1]
          simp only [except_bind_error]
        rw [hcompute] at heq
        exact Except.noConfusion heq
    · by_cases hc : cacheK.data.length + keyLayer.length ≤ cacheK.capacity
          ∧ cacheV.data.length + valueLayer.length ≤ cacheV.capacity
      · have hcompute : falconCacheUpdate headDim (some (cacheK, cacheV)) true
            keyLayer valueLayer =
            .ok (some
              (⟨cacheK.capacity, cacheK.data ++ keyLayer⟩,
               ⟨cacheV.capacity, cacheV.data ++ valueLayer⟩)) := by
          simp only [falconCacheUpdate]
          rw [if_neg hp]
          simp only [pure_bind]
          simp only [appendKvCache]
          rw [if_pos hc]
          simp only [except_bind_ok]
          rfl
        rw [hcompute] at heq
        simp only [Except.ok.injEq, Option.some.injEq, Prod.mk.injEq] at heq
        obtain ⟨hk, hv⟩ := heq
        subst hk
        subst hv
        constructor
        · simp only [List.length_append]
          omega
        · simp only [List.length_append]
      · have hcompute : falconCacheUpdate headDim (some (cacheK, cacheV)) true
            keyLayer valueLayer = .error .capacityExceeded := by
          simp only [falconCacheUpdate]
          rw [if_neg hp]
          simp only [pure_bind]
          simp only [appendKvCache]
          rw [if_neg hc]
          simp only [except_bind_error]
        rw [hcompute] at heq
        exact Except.noConfusion heq
  · intro headDim keyLayer valueLayer kOut vOut hklen heq
    have hcompute : falconCacheUpdate headDim none true keyLayer valueLayer =
        .ok (some (⟨keyLayer.length + KV_CACHE_ALLOC_BLOCK_LENGTH, keyLayer⟩,
                   ⟨keyLayer.length + KV_CACHE_ALLOC_BLOCK_LENGTH, valueLayer⟩)) := by
      simp only [falconCacheUpdate, createKvCache]
      rw [if_pos (show keyLayer.length ≤ keyLayer.length + KV_CACHE_ALLOC_BLOCK_LENGTH
        by omega)]
      rw [if_pos (show valueLayer.length ≤ keyLayer.length + KV_CACHE_ALLOC_BLOCK_LENGTH
        by omega)]
      simp only [except_bind_ok]
      rfl
    rw [hcompute] at heq
    simp only [Except.ok.injEq, Option.some.injEq, Prod.mk.injEq] at heq
    obtain ⟨hk, hv⟩ := heq
    subst hk
    subst hv
    exact ⟨hklen.symm, rfl⟩

/-- C10 witness: a lockstep 2-row past cache receiving one new row per
role yields a present pair with equal lengths 3; a first step with 2 new
rows yields equal lengths 2. -/
theorem falcon_present_lockstep_witness :
    ((3 : Nat) = 3 ∧ (3 : Nat) = 2 + 1)
    ∧ ((2 : Nat) = 2 ∧ (2 : Nat) = 2) :=
  ⟨falcon_present_lockstep.1 1 ⟨4, [10, 11]⟩ ⟨4, [12, 13]⟩ [20] [21]
      ⟨4, [10, 11, 20]⟩ ⟨4, [12, 13, 21]⟩ rfl rfl rfl rfl,
   falcon_present_lockstep.2 1 [30, 31] [40, 41]
      ⟨2 + KV_CACHE_ALLOC_BLOCK_LENGTH, [30, 31]⟩
      ⟨2 + KV_CACHE_ALLOC_BLOCK_LENGTH, [40, 41]⟩ rfl rfl⟩

theorem writeSlot_ne (h : Heap α) (a i : Nat) (x : Option α) (a2 : Nat) (hne : a2 ≠ a) :
    writeSlot h a i x a2 = h a2 := by
  simp [writeSlot, hne]

theorem writeSlot_self (h : Heap α) (a i : Nat) (x : Option α) :
    writeSlot h a i x a = (h a).set i x := by
  simp [writeSlot]

theorem writeRegion_ne (h : Heap α) (a : Nat) (region : List (Option α)) (a2 : Nat)
    (hne : a2 ≠ a) : writeRegion h a region a2 = h a2 := by
  simp [writeRegion, hne]

theorem copyRows_ne (src dst a : Nat) (hne : a ≠ dst) :
    ∀ (k : Nat) (h : Heap α), copyRows src dst k h a = h a := by
  intro k
  induction k with
  | zero => intro h; rfl
  | succ k ih =>
    intro h
    show copyRows src dst k (writeSlot h dst k ((h src).getD k none)) a = h a
    rw [ih]
    exact writeSlot_ne h dst k _ a hne

theorem copyRows_length (src dst : Nat) :
    ∀ (k : Nat) (h : Heap α), (copyRows src dst k h dst).length = (h dst).length := by
  intro k
  induction k with
  | zero => intro h; rfl
  | succ k ih =>
    intro h
    show (copyRows src dst k (writeSlot h dst k ((h src).getD k none)) dst).length = _
    rw [ih, writeSlot_self, List.length_set]

theorem copyRows_get_ge (src dst : Nat) :
    ∀ (k j : Nat), k ≤ j → ∀ (h : Heap α),
      (copyRows src dst k h dst).getD j none = (h dst).getD j none := by
  intro k
  induction k with
  | zero => intro j _ h; rfl
  | succ k ih =>
    intro j hj h
    show (copyRows src dst k (writeSlot h dst k ((h src).getD k none)) dst).getD j none = _
    rw [ih j (by omega), writeSlot_self]
    exact list_getD_set_ne _ k j _ _ (by omega)

theorem copyRows_get_lt (src dst : Nat) (hne : src ≠ dst) :
    ∀ (k j : Nat), j < k → ∀ (h : Heap α), k ≤ (h dst).length →
      (copyRows src dst k h dst).getD j none = (h src).getD j none := by
  intro k
  induction k with
  | zero => intro j hj; omega
  | succ k ih =>
    intro j hj h hlen
    show (copyRows src dst k (writeSlot h dst k ((h src).getD k none)) dst).getD j none = _
    by_cases hjk : j < k
    · rw [ih j hjk _ (by
        rw [writeSlot_self, List.length_set]
        omega)]
      rw [writeSlot_ne h dst k _ src hne]
    · have hj2 : j = k := by omega
      subst hj2
      rw [copyRows_get_ge src dst j j (le_refl j), writeSlot_self]
      exact list_getD_set_self _ j _ _ (by omega)

/-- C7: growth is atomic with respect to failure. At storage level, the
old region is written only after the new region is fully populated: if
allocation fails or the row-by-row copy stops early, the buffer handle is
unchanged and its region's contents are bit-identical to before; on
success the rebound buffer has the same length and the same first
`len` rows. -/
theorem falcon_growth_atomic :
    ∀ (allocOk : Bool) (copyBudget : Nat) (h : Heap Nat) (b : BufRef) (dst newCap : Nat),
      dst ≠ b.addr → b.len ≤ newCap →
      (∀ hFail, growAttempt allocOk copyBudget h b dst newCap = .error hFail →
          hFail b.addr = h b.addr)
      ∧ (∀ hOk bOut, growAttempt allocOk copyBudget h b dst newCap = .ok (hOk, bOut) →
          hOk b.addr = h b.addr
          ∧ bOut.len = b.len
          ∧ ∀ j, j < b.len → (hOk bOut.addr).getD j none = (h b.addr).getD j none) := by
  intro allocOk copyBudget h b dst newCap hne hcap
  cases allocOk with
  | false =>
    constructor
    · intro hFail heq
      simp only [growAttempt] at heq
      rw [if_neg (by decide)] at heq
      injection heq with heq2
      rw [heq2]
    · intro hOk bOut heq
      simp only [growAttempt] at heq
      rw [if_neg (by decide)] at heq
      exact Except.noConfusion heq
  | true =>
    by_cases hb : b.len ≤ copyBudget
    · constructor
      · intro hFail heq
        simp only [growAttempt] at heq
        rw [if_pos trivial, if_pos hb] at heq
        exact Except.noConfusion heq
      · intro hOk bOut heq
        simp only [growAttempt] at heq
        rw [if_pos trivial, if_pos hb] at heq
        simp only [Except.ok.injEq, Prod.mk.injEq] at heq
        obtain ⟨hk, hv⟩ := heq
        subst hk
        subst hv
        refine ⟨?_, rfl, ?_⟩
        · rw [copyRows_ne b.addr dst b.addr (Ne.symm hne)]
          exact writeRegion_ne h dst _ b.addr (Ne.symm hne)
        · intro j hj
          show (copyRows b.addr dst b.len (writeRegion h dst _) dst).getD j none = _
          rw [copyRows_get_lt b.addr dst (Ne.symm hne) b.len j hj _ (by
            show b.len ≤ (writeRegion h dst (List.replicate newCap none) dst).length
            simpa [writeRegion] using hcap)]
          rw [writeRegion_ne h dst _ b.addr (Ne.symm hne)]
    · constructor
      · intro hFail heq
        simp only [growAttempt] at heq
        rw [if_pos trivial, if_neg hb] at heq
        injection heq with heq2
        rw [← heq2]
        rw [copyRows_ne b.addr dst b.addr (Ne.symm hne)]
        exact writeRegion_ne h dst _ b.addr (Ne.symm hne)
      · intro hOk bOut heq
        simp only [growAttempt] at heq
        rw [if_pos trivial, if_neg hb] at heq
        exact Except.noConfusion heq

/-- C7 witness: a full-copy growth of a 2-row buffer at address 0 into a
fresh capacity-3 region at address 1 leaves the old region unchanged and
reproduces both rows; the instantiating heap holds rows 7 and 8. -/
theorem falcon_growth_atomic_witness :
    (copyRows 0 1 2 (writeRegion
          (fun a => if a = 0 then [some 7, some 8] else ([] : List (Option Nat))) 1
          (List.replicate 3 none))) 0
        = (fun a => if a = 0 then [some 7, some 8] else ([] : List (Option Nat))) 0
    ∧ (BufRef.mk 1 2).len = (BufRef.mk 0 2).len
    ∧ ∀ j, j < (BufRef.mk 0 2).len →
        ((copyRows 0 1 2 (writeRegion
            (fun a => if a = 0 then [some 7, some 8] else ([] : List (Option Nat))) 1
            (List.replicate 3 none))) 1).getD j none
          = ((fun a => if a = 0 then [some 7, some 8] else ([] : List (Option Nat))) 0).getD j none :=
  (falcon_growth_atomic true 2
      (fun a => if a = 0 then [some 7, some 8] else ([] : List (Option Nat)))
      (BufRef.mk 0 2) 1 3 (by decide) (by decide)).2
    (copyRows 0 1 2 (writeRegion
      (fun a => if a = 0 then [some 7, some 8] else ([] : List (Option Nat))) 1
      (List.replicate 3 none)))
    (BufRef.mk 1 2) rfl

end BigDLKV
